import Mathlib

/-!
Verification development for lcspires/tk_data_cleaner (src/app.py).

The application loads tabular data (Excel/CSV/TXT), lets the user curate an
ordered column selection, runs a three-stage cleaning pipeline (whitespace
normalization, length filtering, duplicate removal) and exports the result as
a semicolon-delimited TXT file.

Shallow embedding conventions:
- files are lists of bytes (List Nat), text is List Char / String;
- the pandas calls (read_csv, to_csv) and the three cleaning functions of
  logic.py (imported by app.py but not shipped in src/) are modelled from the
  specification, as noted on each definition;
- Tkinter state (the loaded DataFrame, the listbox holding the curated column
  selection, the spinbox text, the three counters) is an explicit AppState
  record, and the UI handlers are state-passing functions.
-/

/-- Scalar cell value of a tabular dataset: a string, a number, or the
missing-value marker (pandas NaN). -/
inductive Value where
  | str (s : String)
  | num (n : Int)
  | missing
deriving DecidableEq

/-- One row of a dataset: a mapping from column name to scalar value,
represented as an association list. -/
abbrev Row := List (String × Value)

/-- An in-memory ordered table: ordered column names plus ordered rows. -/
structure DataFrame where
  cols : List String
  rows : List Row
deriving DecidableEq

/-- Value of column c in row r; missing when the row has no such column
(pandas yields NaN for absent labels). First binding wins. -/
def cellValue (r : Row) (c : String) : Value :=
  ((r.find? (fun p => p.1 == c)).map Prod.snd).getD Value.missing

/-- String coercion of a scalar, as used for lengths and for writing cells:
strings unchanged, numbers printed, missing rendered as the empty string. -/
def strCoerce : Value → String
  | .str s => s
  | .num n => toString n
  | .missing => ""

/-! ## Text encodings

src/app.py reads delimited text with encoding='utf-8' first and falls back to
encoding='latin1' on UnicodeDecodeError (lines 45-48). -/

/-- The two text encodings tried by the reader. -/
inductive Enc where
  | utf8
  | latin1
deriving DecidableEq

/-- Continuation byte of a UTF-8 multi-byte sequence. -/
abbrev contB (x : Nat) : Prop := 0x80 ≤ x ∧ x ≤ 0xBF

/-- Codepoint encoded by a two-byte UTF-8 sequence (always in 0x80..0x7FF when
the lead byte is in 0xC2..0xDF). -/
abbrev val2 (b b2 : Nat) : Nat := (b - 0xC0) * 0x40 + (b2 - 0x80)

/-- Codepoint encoded by a three-byte UTF-8 sequence. -/
abbrev val3 (b b2 b3 : Nat) : Nat := (b - 0xE0) * 0x1000 + (b2 - 0x80) * 0x40 + (b3 - 0x80)

/-- Side conditions of a three-byte sequence: continuation bytes, not
overlong, not a surrogate. -/
abbrev cond3 (b b2 b3 : Nat) : Prop :=
  contB b2 ∧ contB b3 ∧ 0x800 ≤ val3 b b2 b3 ∧
    (val3 b b2 b3 < 0xD800 ∨ 0xDFFF < val3 b b2 b3)

/-- Codepoint encoded by a four-byte UTF-8 sequence. -/
abbrev val4 (b b2 b3 b4 : Nat) : Nat :=
  (b - 0xF0) * 0x40000 + (b2 - 0x80) * 0x1000 + (b3 - 0x80) * 0x40 + (b4 - 0x80)

/-- Side conditions of a four-byte sequence: continuation bytes, in
0x10000..0x10FFFF. -/
abbrev cond4 (b b2 b3 b4 : Nat) : Prop :=
  contB b2 ∧ contB b3 ∧ contB b4 ∧ 0x10000 ≤ val4 b b2 b3 b4 ∧ val4 b b2 b3 b4 ≤ 0x10FFFF

/-- Strict UTF-8 decoding of a byte list: None exactly on malformed input
(stray continuation bytes, truncated/overlong sequences, surrogates,
out-of-range codepoints), like Python bytes.decode with encoding utf-8.
The list shapes are enumerated up to depth four so that every multi-byte
sequence is read off the top-level pattern. -/
def utf8Decode : List Nat → Option (List Char)
  | [] => some []
  | [b] =>
    if b < 0x80 then (utf8Decode []).map (fun cs => Char.ofNat b :: cs)
    else none
  | [b, b2] =>
    if b < 0x80 then (utf8Decode [b2]).map (fun cs => Char.ofNat b :: cs)
    else if 0xC2 ≤ b ∧ b ≤ 0xDF then
      if contB b2 then (utf8Decode []).map (fun cs => Char.ofNat (val2 b b2) :: cs) else none
    else none
  | [b, b2, b3] =>
    if b < 0x80 then (utf8Decode [b2, b3]).map (fun cs => Char.ofNat b :: cs)
    else if 0xC2 ≤ b ∧ b ≤ 0xDF then
      if contB b2 then (utf8Decode [b3]).map (fun cs => Char.ofNat (val2 b b2) :: cs) else none
    else if 0xE0 ≤ b ∧ b ≤ 0xEF then
      if cond3 b b2 b3 then (utf8Decode []).map (fun cs => Char.ofNat (val3 b b2 b3) :: cs)
      else none
    else none
  | b :: b2 :: b3 :: b4 :: bs =>
    if b < 0x80 then (utf8Decode (b2 :: b3 :: b4 :: bs)).map (fun cs => Char.ofNat b :: cs)
    else if 0xC2 ≤ b ∧ b ≤ 0xDF then
      if contB b2 then (utf8Decode (b3 :: b4 :: bs)).map (fun cs => Char.ofNat (val2 b b2) :: cs)
      else none
    else if 0xE0 ≤ b ∧ b ≤ 0xEF then
      if cond3 b b2 b3 then (utf8Decode (b4 :: bs)).map (fun cs => Char.ofNat (val3 b b2 b3) :: cs)
      else none
    else if 0xF0 ≤ b ∧ b ≤ 0xF4 then
      if cond4 b b2 b3 b4 then (utf8Decode bs).map (fun cs => Char.ofNat (val4 b b2 b3 b4) :: cs)
      else none
    else none

/-- Latin-1 decoding: total, one char per byte. -/
def latin1Decode (b : List Nat) : List Char :=
  b.map Char.ofNat

/-- Decode a byte list with the given encoding; only UTF-8 can fail. -/
def decodeWith : Enc → List Nat → Option (List Char)
  | .utf8, b => utf8Decode b
  | .latin1, b => some (latin1Decode b)

/-! ## Delimited-text parsing

Modelled from the spec: pandas.read_csv is an external dependency not in
src/. Per spec section 4.1 the parse uses the first line as header, skips
malformed individual lines (wrong field count), and a file with no content
fails (pandas EmptyDataError). Quoting is not modelled. -/

/-- Split a character list at every separator satisfying p; always returns at
least one (possibly empty) part. -/
def splitOnP (p : Char → Bool) : List Char → List (List Char)
  | [] => [[]]
  | c :: cs =>
    match splitOnP p cs with
    | [] => [[]]
    | h :: t => if p c then [] :: h :: t else (c :: h) :: t

/-- Non-blank lines of a decoded text (pandas skips blank lines). -/
def dataLines (cs : List Char) : List (List Char) :=
  (splitOnP (fun c => c == '\n') cs).filter (fun l => !l.isEmpty)

/-- Fields of one line under the given delimiter. -/
def fields (sep : Char) (l : List Char) : List (List Char) :=
  splitOnP (fun c => c == sep) l

/-- Errors of the delimited-text reader. -/
inductive ReadErr where
  | decodeError
  | emptyData
  | unreadable
deriving DecidableEq

/-- Modelled from the spec: pandas.read_csv parsing of already-decoded text
(first line is the header; a data line whose field count differs from the
header is skipped, not an error; a file with no content fails). -/
def parseCsv (cs : List Char) (sep : Char) : Except ReadErr DataFrame :=
  match dataLines cs with
  | [] => .error .emptyData
  | h :: t =>
    let cols := (fields sep h).map (fun f => String.mk f)
    let goodRows :=
      (t.map (fun l => (fields sep l).map (fun f => Value.str (String.mk f)))).filter
        (fun fs => fs.length == cols.length)
    .ok ⟨cols, goodRows.map (fun fs => cols.zip fs)⟩

/-- Modelled from the spec: one pandas.read_csv call on a byte file with a
given delimiter and encoding: decode, then parse. -/
def read_csv (b : List Nat) (sep : Char) (enc : Enc) : Except ReadErr DataFrame :=
  match decodeWith enc b with
  | none => .error .decodeError
  | some cs => parseCsv cs sep

/-- Loop body of tentar_leitura_csv_variavel_sep (src/app.py lines 43-52):
for each delimiter try utf-8; on a decode error try latin1; on any other
failure move to the next delimiter. -/
def tentarAux (b : List Nat) : List Char → Except ReadErr DataFrame
  | [] => .error .unreadable
  | sep :: rest =>
    match read_csv b sep .utf8 with
    | .ok df => .ok df
    | .error .decodeError =>
      match read_csv b sep .latin1 with
      | .ok df => .ok df
      | .error _ => tentarAux b rest
    | .error _ => tentarAux b rest

/-- src/app.py lines 32-53: try delimiters ';', ',', '\t' in order, each with
utf-8 then latin1; raise when none succeeds. -/
def tentar_leitura_csv_variavel_sep (b : List Nat) : Except ReadErr DataFrame :=
  tentarAux b [';', ',', '\t']

/-- Success test for a reader outcome. -/
def exceptIsOk : Except ReadErr DataFrame → Bool
  | .ok _ => true
  | .error _ => false

/-- The six (delimiter, encoding) candidates in the priority order described
by the spec: semicolon, comma, tab, each with utf-8 before latin1. -/
def combosPriority : List (Char × Enc) :=
  [(';', .utf8), (';', .latin1), (',', .utf8), (',', .latin1), ('\t', .utf8), ('\t', .latin1)]

/-- The first candidate combination that succeeds on the file, if any. -/
def comboUsed (b : List Nat) : Option (Char × Enc) :=
  combosPriority.find? (fun c => exceptIsOk (read_csv b c.1 c.2))

/-- Reader behaviour as the spec words it: return the dataset of the first
successful combination in priority order, otherwise fail. -/
def readerSpec (b : List Nat) : Except ReadErr DataFrame :=
  match comboUsed b with
  | some c => read_csv b c.1 c.2
  | none => .error .unreadable

/-! ## Cleaning pipeline

The three stage functions live in logic.py, which src/app.py imports but
which is not shipped in src/. They are modelled from the spec, sections
4.2-4.4. -/

/-- Modelled from the spec, section 4.2: strip leading/trailing whitespace and
collapse internal runs of whitespace to a single space. -/
def normalizeWhitespace (s : String) : String :=
  String.mk (List.intercalate [' ']
    ((splitOnP (fun c => c.isWhitespace) s.toList).filter (fun w => !w.isEmpty)))

/-- Whitespace normalization of one cell: only text cells are touched. -/
def normVal : Value → Value
  | .str s => .str (normalizeWhitespace s)
  | v => v

/-- Modelled from the spec, section 4.2 (logic.py, absent from src/):
normalize whitespace in every cell of the listed columns, counting the cells
whose value changed. Rows are not reordered; other columns are untouched. -/
def limpar_espacos_em_colunas (df : DataFrame) (cols : List String) : DataFrame × Nat :=
  let rows := df.rows.map (fun r => r.map (fun p => if cols.contains p.1 then (p.1, normVal p.2) else p))
  let changed :=
    (df.rows.map (fun r => (r.filter (fun p => cols.contains p.1 && normVal p.2 != p.2)).length)).sum
  (⟨df.cols, rows⟩, changed)

/-- Modelled from the spec, section 4.3 (logic.py, absent from src/): drop the
rows whose key-column value, string-coerced, is shorter than min_len;
return the kept rows (in order) and the number of dropped rows. -/
def filtrar_primeira_coluna_por_tamanho (df : DataFrame) (key : String) (min_len : Int) :
    DataFrame × Nat :=
  let kept := df.rows.filter (fun r => decide (min_len ≤ ((strCoerce (cellValue r key)).length : Int)))
  (⟨df.cols, kept⟩, df.rows.length - kept.length)

/-- First-occurrence-wins scan used by duplicate removal. -/
def dedupeKeep (key : String) (seen : List Value) : List Row → List Row
  | [] => []
  | r :: rs =>
    if cellValue r key ∈ seen then dedupeKeep key seen rs
    else r :: dedupeKeep key (cellValue r key :: seen) rs

/-- Modelled from the spec, section 4.4 (logic.py, absent from src/): keep a
row only if its key-column value has not been seen before (exact value
comparison); count the dropped rows. -/
def remover_duplicatas (df : DataFrame) (key : String) : DataFrame × Nat :=
  let kept := dedupeKeep key [] df.rows
  (⟨df.cols, kept⟩, df.rows.length - kept.length)

/-- Pandas column projection df[cols].copy() (src/app.py line 248): a fresh
dataset holding exactly the chosen columns, in the chosen order. -/
def selectColumns (df : DataFrame) (cols : List String) : DataFrame :=
  ⟨cols, df.rows.map (fun r => cols.map (fun c => (c, cellValue r c)))⟩

/-! ## Export writer -/

/-- A written text file: whether it starts with a byte-order marker, the field
separator used, and its lines. -/
structure TxtOutput where
  bom : Bool
  sep : Char
  lines : List String
deriving DecidableEq

/-- Join strings with a single-character separator. -/
def joinWith (sep : Char) (xs : List String) : String :=
  String.mk (List.intercalate [sep] (xs.map String.toList))

/-- Modelled from the spec, section 4.5: pandas DataFrame.to_csv with
index=False and encoding utf-8-sig (src/app.py line 270): a byte-order
marker, one header line, then one line per row, fields joined by sep. -/
def to_csv (df : DataFrame) (sep : Char) : TxtOutput :=
  ⟨true, sep,
    joinWith sep df.cols ::
      df.rows.map (fun r => joinWith sep (df.cols.map (fun c => strCoerce (cellValue r c))))⟩

/-! ## Application state and handlers (src/app.py, class UnifiedApp) -/

/-- The mutable fields of UnifiedApp that the handlers read or write: the
loaded dataset, the three cleaning counters, the listbox contents (the
curated column selection) and the spinbox text. -/
structure AppState where
  df : Option DataFrame
  total_espacos_removidos : Nat
  linhas_removidas_por_tamanho : Nat
  total_duplicatas_removidas : Nat
  listbox_colunas : List String
  spin_min_len : String
deriving DecidableEq

/-- Python int(s): optional surrounding whitespace, optional sign, at least
one digit; ValueError (None) otherwise. -/
def pythonInt (s : String) : Option Int :=
  match ((s.toList.dropWhile Char.isWhitespace).reverse.dropWhile Char.isWhitespace).reverse with
  | [] => none
  | c :: cs =>
    if c = '-' then
      if !cs.isEmpty && cs.all Char.isDigit then
        some (-(cs.foldl (fun a d => a * 10 + (d.toNat - 48)) 0 : Nat))
      else none
    else if c = '+' then
      if !cs.isEmpty && cs.all Char.isDigit then
        some ((cs.foldl (fun a d => a * 10 + (d.toNat - 48)) 0 : Nat))
      else none
    else
      if (c :: cs).all Char.isDigit then
        some (((c :: cs).foldl (fun a d => a * 10 + (d.toNat - 48)) 0 : Nat))
      else none

/-- Result shown to the user by gerar_txt: a warning messagebox, a cancelled
save dialog, a saved file, or a save error messagebox. -/
inductive GenOutcome where
  | warning (msg : String)
  | cancelled
  | saved (out : TxtOutput)
  | saveError
deriving DecidableEq

/-- src/app.py lines 221-277, UnifiedApp.gerar_txt: validate the loaded file,
the curated column selection and the spinbox threshold; then clean the
selected columns (whitespace, length filter on the first selected column,
duplicate removal on the first selected column), store the three counters,
and write the semicolon-delimited file. saveChosen models the user picking a
path in the save dialog, writeOk the to_csv call not raising. The third
component records which cleaning-stage functions were invoked, in order. -/
def gerar_txt (st : AppState) (saveChosen : Bool) (writeOk : Bool) :
    AppState × GenOutcome × List String :=
  match st.df with
  | none => (st, .warning "Nenhum arquivo carregado.", [])
  | some df =>
    let colunas_selecionadas := st.listbox_colunas
    if colunas_selecionadas.isEmpty then
      (st, .warning "Selecione pelo menos uma coluna.", [])
    else
      match pythonInt st.spin_min_len with
      | none => (st, .warning "Digite um numero inteiro valido para o minimo de caracteres.", [])
      | some min_len =>
        if min_len < 1 then
          (st, .warning "Digite um numero inteiro valido para o minimo de caracteres.", [])
        else
          let primeira_col := colunas_selecionadas.headD ""
          let r1 := limpar_espacos_em_colunas (selectColumns df colunas_selecionadas) colunas_selecionadas
          let r2 := filtrar_primeira_coluna_por_tamanho r1.1 primeira_col min_len
          let r3 := remover_duplicatas r2.1 primeira_col
          let st' := { st with
            total_espacos_removidos := r1.2
            linhas_removidas_por_tamanho := r2.2
            total_duplicatas_removidas := r3.2 }
          let trace := ["limpar_espacos_em_colunas", "filtrar_primeira_coluna_por_tamanho",
            "remover_duplicatas"]
          if !saveChosen then (st', .cancelled, trace)
          else if writeOk then (st', .saved (to_csv r3.1 ';'), trace)
          else (st', .saveError, trace)

/-- The pipeline exactly as the spec words it: whitespace normalization, then
length filtering, then duplicate removal, each stage consuming the previous
stage's output dataset, the key column being the first entry of the curated
selection; returns the final dataset and the three counters. -/
def pipeline_spec (df : DataFrame) (cols : List String) (m : Int) :
    DataFrame × Nat × Nat × Nat :=
  let key := cols.headD ""
  let s1 := limpar_espacos_em_colunas (selectColumns df cols) cols
  let s2 := filtrar_primeira_coluna_por_tamanho s1.1 key m
  let s3 := remover_duplicatas s2.1 key
  (s3.1, s1.2, s2.2, s3.2)

/-! ## File selection handler -/

/-- Outcome of the file dialog plus the chosen file's kind and content:
dialog cancelled, a spreadsheet (whose external pandas.read_excel outcome is
given), a delimited text file given by its bytes, or an unsupported
extension. -/
inductive FileChoice where
  | cancelled
  | excel (res : Except String DataFrame)
  | delim (bytes : List Nat)
  | unsupported

/-- src/app.py lines 119-156, UnifiedApp.selecionar_arquivo: on a successful
read, store the dataset, reload the listbox with its columns and reset the
three counters; on a failed read (or no selection) leave the state as is. -/
def selecionar_arquivo (st : AppState) (choice : FileChoice) : AppState :=
  match choice with
  | .cancelled => st
  | .unsupported => st
  | .excel (.error _) => st
  | .excel (.ok df) =>
    { st with
      df := some df
      listbox_colunas := df.cols
      total_espacos_removidos := 0
      linhas_removidas_por_tamanho := 0
      total_duplicatas_removidas := 0 }
  | .delim b =>
    match tentar_leitura_csv_variavel_sep b with
    | .ok df =>
      { st with
        df := some df
        listbox_colunas := df.cols
        total_espacos_removidos := 0
        linhas_removidas_por_tamanho := 0
        total_duplicatas_removidas := 0 }
    | .error _ => st

/-- The dataset produced by the reader appropriate to the chosen file, if the
read succeeds. -/
def readOutcome : FileChoice → Option DataFrame
  | .cancelled => none
  | .unsupported => none
  | .excel r => r.toOption
  | .delim b => (tentar_leitura_csv_variavel_sep b).toOption

/-! ## Listbox handlers (curated column selection) -/

/-- Tkinter Listbox.insert(i, x): insert x at position i (append when i is
past the end). -/
def insertAt {α : Type} (l : List α) (n : Nat) (x : α) : List α :=
  match n with
  | 0 => x :: l
  | n + 1 =>
    match l with
    | [] => [x]
    | a :: as => a :: insertAt as n x
termination_by structural n

/-- One iteration of the mover_cima loop (src/app.py lines 172-182): skip
index 0, otherwise swap the item with the one above it, via the same
delete/insert sequence the code performs. -/
def step_cima (l : List String) (i : Nat) : List String :=
  if i = 0 then l
  else
    let texto := l.getD i ""
    let acima := l.getD (i - 1) ""
    let l1 := (l.eraseIdx (i - 1)).eraseIdx (i - 1)
    insertAt (insertAt l1 (i - 1) texto) i acima

/-- src/app.py lines 168-182, UnifiedApp.mover_cima: move every selected
index up by one, iterating over the selection in ascending order. -/
def mover_cima (l : List String) (sel : List Nat) : List String :=
  sel.foldl step_cima l

/-- One iteration of the mover_baixo loop (src/app.py lines 190-199): skip
the last index (count is the size captured before the loop), otherwise swap
the item with the one below it via delete/insert. -/
def step_baixo (count : Nat) (l : List String) (i : Nat) : List String :=
  if (i : Int) = (count : Int) - 1 then l
  else
    let texto := l.getD i ""
    let abaixo := l.getD (i + 1) ""
    let l1 := (l.eraseIdx i).eraseIdx i
    insertAt (insertAt l1 i abaixo) (i + 1) texto

/-- src/app.py lines 184-199, UnifiedApp.mover_baixo: move every selected
index down by one, iterating over the selection in descending order. -/
def mover_baixo (l : List String) (sel : List Nat) : List String :=
  sel.reverse.foldl (step_baixo l.length) l

/-- src/app.py lines 201-207, UnifiedApp.remover_colunas: delete the selected
indices, iterating over the selection in descending order. -/
def remover_colunas (l : List String) (sel : List Nat) : List String :=
  sel.reverse.foldl (fun acc i => acc.eraseIdx i) l


/-! ## Concrete fixtures used by the closed instance theorems -/

/-- A small dataset like spec Scenario 1. -/
def exDf : DataFrame :=
  ⟨["A", "B"],
    [[("A", Value.str " 12  34 "), ("B", Value.str "x")],
      [("A", Value.str "1234"), ("B", Value.str "y")]]⟩

/-- An application state with exDf loaded, both columns curated, threshold 4. -/
def exSt : AppState := ⟨some exDf, 0, 0, 0, ["A", "B"], "4"⟩

/-- An application state whose spinbox holds the invalid threshold 0. -/
def exStBad : AppState := ⟨some exDf, 7, 8, 9, ["A"], "0"⟩

/-- An application state holding a previously loaded dataset and counters. -/
def exStPrev : AppState := ⟨some exDf, 3, 4, 5, ["A"], "6"⟩

/-- Bytes of a comma-delimited Latin-1 file (0xE9 is not valid UTF-8 here). -/
def exLatin1Bytes : List Nat := [0xE9, 0x61, 0x2C, 0x62, 0x0A, 0x63, 0x2C, 0x64]

/-- A decoded delimited text whose middle line has a wrong field count. -/
def exCsvText : List Char := "a;b\nx;y;z\nc;d".toList

/-- The dataset the parse of exCsvText must produce: the malformed middle
line is skipped. -/
def exParsedDf : DataFrame := ⟨["a", "b"], [[("a", Value.str "c"), ("b", Value.str "d")]]⟩

/-! ## Reader lemmas -/

theorem char_toNat_ofNat_valid (n : Nat) (hv : n.isValidChar) : (Char.ofNat n).toNat = n := by
  unfold Char.ofNat
  rw [dif_pos hv]
  rfl

theorem char_ofNat_eq_newline_iff (n : Nat) : Char.ofNat n = '\n' ↔ n = 10 := by
  constructor
  · intro h
    by_cases hv : n.isValidChar
    · have h1 := char_toNat_ofNat_valid n hv
      rw [h] at h1
      have h2 : '\n'.toNat = 10 := by decide
      rw [h2] at h1
      exact h1.symm
    · exfalso
      have h2 : (Char.ofNat n).toNat = 0 := by
        unfold Char.ofNat
        rw [dif_neg hv]
        rfl
      rw [h] at h2
      have h3 : '\n'.toNat = 10 := by decide
      rw [h3] at h2
      exact absurd h2 (by decide)
  · rintro rfl
    decide


theorem utf8Decode_isSome_of_newlines (b : List Nat) :
    (∀ x ∈ b, x = 10) → (utf8Decode b).isSome := by
  induction b using utf8Decode.induct
  all_goals intro h
  all_goals try (exfalso; have hb := h _ (List.mem_cons_self _ _); omega)
  next => simp [utf8Decode]
  next b hlt ih =>
    rw [utf8Decode, if_pos hlt]
    simp only [Option.isSome_map']
    exact ih (by simp)
  next b b2 hlt ih =>
    rw [utf8Decode, if_pos hlt]
    simp only [Option.isSome_map']
    exact ih (fun x hx => h x (List.mem_cons_of_mem _ hx))
  next b b2 b3 hlt ih =>
    rw [utf8Decode, if_pos hlt]
    simp only [Option.isSome_map']
    exact ih (fun x hx => h x (List.mem_cons_of_mem _ hx))
  next b b2 b3 b4 bs hlt ih =>
    rw [utf8Decode, if_pos hlt]
    simp only [Option.isSome_map']
    exact ih (fun x hx => h x (List.mem_cons_of_mem _ hx))

theorem utf8_newlines (b : List Nat) :
    ∀ cs, utf8Decode b = some cs → ((∀ c ∈ cs, c = '\n') ↔ (∀ x ∈ b, x = 10)) := by
  induction b using utf8Decode.induct
  all_goals intro cs h
  all_goals try (exfalso; simp [utf8Decode, *] at h; done)
  next =>
    simp only [utf8Decode, Option.some.injEq] at h
    subst h
    simp
  next b hlt ih =>
    rw [utf8Decode, if_pos hlt, Option.map_eq_some'] at h
    obtain ⟨cs', hcs', rfl⟩ := h
    rw [List.forall_mem_cons, List.forall_mem_cons]
    exact and_congr (char_ofNat_eq_newline_iff b) (ih cs' hcs')
  next b b2 hlt ih =>
    rw [utf8Decode, if_pos hlt, Option.map_eq_some'] at h
    obtain ⟨cs', hcs', rfl⟩ := h
    rw [List.forall_mem_cons, List.forall_mem_cons]
    exact and_congr (char_ofNat_eq_newline_iff b) (ih cs' hcs')
  next b b2 hnlt hrange hcont _ =>
    rw [utf8Decode, if_neg hnlt, if_pos hrange, if_pos hcont, Option.map_eq_some'] at h
    obtain ⟨cs', hcs', rfl⟩ := h
    apply iff_of_false
    · intro hc
      have h10 := (char_ofNat_eq_newline_iff (val2 b b2)).mp (hc _ (List.mem_cons_self _ _))
      have h10' : (b - 0xC0) * 0x40 + (b2 - 0x80) = 10 := h10
      obtain ⟨hc1, hc2⟩ := hcont
      omega
    · intro hb
      have hb1 := hb b (List.mem_cons_self _ _)
      omega
  next b b2 b3 hlt ih =>
    rw [utf8Decode, if_pos hlt, Option.map_eq_some'] at h
    obtain ⟨cs', hcs', rfl⟩ := h
    rw [List.forall_mem_cons, List.forall_mem_cons]
    exact and_congr (char_ofNat_eq_newline_iff b) (ih cs' hcs')
  next b b2 b3 hnlt hrange hcont _ =>
    rw [utf8Decode, if_neg hnlt, if_pos hrange, if_pos hcont, Option.map_eq_some'] at h
    obtain ⟨cs', hcs', rfl⟩ := h
    apply iff_of_false
    · intro hc
      have h10 := (char_ofNat_eq_newline_iff (val2 b b2)).mp (hc _ (List.mem_cons_self _ _))
      have h10' : (b - 0xC0) * 0x40 + (b2 - 0x80) = 10 := h10
      obtain ⟨hc1, hc2⟩ := hcont
      omega
    · intro hb
      have hb1 := hb b (List.mem_cons_self _ _)
      omega
  next b b2 b3 hnlt hn2 hrange hcond _ =>
    rw [utf8Decode, if_neg hnlt, if_neg hn2, if_pos hrange, if_pos hcond,
      Option.map_eq_some'] at h
    obtain ⟨cs', hcs', rfl⟩ := h
    apply iff_of_false
    · intro hc
      have h10 := (char_ofNat_eq_newline_iff (val3 b b2 b3)).mp (hc _ (List.mem_cons_self _ _))
      have h10' : (b - 0xE0) * 0x1000 + (b2 - 0x80) * 0x40 + (b3 - 0x80) = 10 := h10
      obtain ⟨hc1, hc2, hc3, hc4⟩ := hcond
      have hc3' : 0x800 ≤ (b - 0xE0) * 0x1000 + (b2 - 0x80) * 0x40 + (b3 - 0x80) := hc3
      omega
    · intro hb
      have hb1 := hb b (List.mem_cons_self _ _)
      omega
  next b b2 b3 b4 bs hlt ih =>
    rw [utf8Decode, if_pos hlt, Option.map_eq_some'] at h
    obtain ⟨cs', hcs', rfl⟩ := h
    rw [List.forall_mem_cons, List.forall_mem_cons]
    exact and_congr (char_ofNat_eq_newline_iff b) (ih cs' hcs')
  next b b2 b3 b4 bs hnlt hrange hcont _ =>
    rw [utf8Decode, if_neg hnlt, if_pos hrange, if_pos hcont, Option.map_eq_some'] at h
    obtain ⟨cs', hcs', rfl⟩ := h
    apply iff_of_false
    · intro hc
      have h10 := (char_ofNat_eq_newline_iff (val2 b b2)).mp (hc _ (List.mem_cons_self _ _))
      have h10' : (b - 0xC0) * 0x40 + (b2 - 0x80) = 10 := h10
      obtain ⟨hc1, hc2⟩ := hcont
      omega
    · intro hb
      have hb1 := hb b (List.mem_cons_self _ _)
      omega
  next b b2 b3 b4 bs hnlt hn2 hrange hcond _ =>
    rw [utf8Decode, if_neg hnlt, if_neg hn2, if_pos hrange, if_pos hcond,
      Option.map_eq_some'] at h
    obtain ⟨cs', hcs', rfl⟩ := h
    apply iff_of_false
    · intro hc
      have h10 := (char_ofNat_eq_newline_iff (val3 b b2 b3)).mp (hc _ (List.mem_cons_self _ _))
      have h10' : (b - 0xE0) * 0x1000 + (b2 - 0x80) * 0x40 + (b3 - 0x80) = 10 := h10
      obtain ⟨hc1, hc2, hc3, hc4⟩ := hcond
      have hc3' : 0x800 ≤ (b - 0xE0) * 0x1000 + (b2 - 0x80) * 0x40 + (b3 - 0x80) := hc3
      omega
    · intro hb
      have hb1 := hb b (List.mem_cons_self _ _)
      omega
  next b b2 b3 b4 bs hnlt hn2 hn3 hrange hcond _ =>
    rw [utf8Decode, if_neg hnlt, if_neg hn2, if_neg hn3, if_pos hrange, if_pos hcond,
      Option.map_eq_some'] at h
    obtain ⟨cs', hcs', rfl⟩ := h
    apply iff_of_false
    · intro hc
      have h10 := (char_ofNat_eq_newline_iff (val4 b b2 b3 b4)).mp (hc _ (List.mem_cons_self _ _))
      have h10' :
          (b - 0xF0) * 0x40000 + (b2 - 0x80) * 0x1000 + (b3 - 0x80) * 0x40 + (b4 - 0x80) = 10 := h10
      obtain ⟨hc1, hc2, hc3, hc4, hc5⟩ := hcond
      have hc4' :
          0x10000 ≤ (b - 0xF0) * 0x40000 + (b2 - 0x80) * 0x1000 + (b3 - 0x80) * 0x40 + (b4 - 0x80) := hc4
      omega
    · intro hb
      have hb1 := hb b (List.mem_cons_self _ _)
      omega

theorem latin1_newlines (b : List Nat) :
    (∀ c ∈ latin1Decode b, c = '\n') ↔ (∀ x ∈ b, x = 10) := by
  simp only [latin1Decode, List.forall_mem_map]
  exact forall₂_congr fun x _ => char_ofNat_eq_newline_iff x

theorem splitOnP_ne_nil (p : Char → Bool) (cs : List Char) : splitOnP p cs ≠ [] := by
  induction cs with
  | nil => simp [splitOnP]
  | cons c cs ih =>
    rcases hsp : splitOnP p cs with _ | ⟨h, t⟩
    · exact absurd hsp ih
    · simp only [splitOnP, hsp]
      split <;> simp

theorem dataLines_eq_nil_iff (cs : List Char) :
    dataLines cs = [] ↔ ∀ c ∈ cs, c = '\n' := by
  induction cs with
  | nil => simp [dataLines, splitOnP]
  | cons c cs ih =>
    obtain ⟨h, t, hht⟩ := List.exists_cons_of_ne_nil (splitOnP_ne_nil (fun c => c == '\n') cs)
    by_cases hc : c = '\n'
    · subst hc
      have e1 : splitOnP (fun c => c == '\n') ('\n' :: cs) = [] :: h :: t := by
        rw [splitOnP, hht]
        simp
      unfold dataLines
      rw [e1]
      have e2 : List.filter (fun l => !l.isEmpty) ([] :: h :: t) =
          List.filter (fun l => !l.isEmpty) (h :: t) := by simp
      rw [e2, ← hht]
      unfold dataLines at ih
      rw [ih]
      simp
    · have e1 : splitOnP (fun c => c == '\n') (c :: cs) = (c :: h) :: t := by
        rw [splitOnP, hht]
        simp [hc]
      apply iff_of_false
      · unfold dataLines
        rw [e1]
        simp
      · intro hall
        exact hc (hall c (List.mem_cons_self _ _))

theorem parseCsv_isOk_iff (cs : List Char) (sep : Char) :
    exceptIsOk (parseCsv cs sep) = true ↔ dataLines cs ≠ [] := by
  rcases hd : dataLines cs with _ | ⟨h, t⟩ <;> simp [parseCsv, hd, exceptIsOk]

theorem read_csv_latin1_eq (b : List Nat) (sep : Char) :
    read_csv b sep .latin1 = parseCsv (latin1Decode b) sep := rfl

theorem read_csv_utf8_none (b : List Nat) (sep : Char) (h : utf8Decode b = none) :
    read_csv b sep .utf8 = .error .decodeError := by
  simp [read_csv, decodeWith, h]

theorem read_csv_utf8_some (b : List Nat) (sep : Char) (cs : List Char)
    (h : utf8Decode b = some cs) : read_csv b sep .utf8 = parseCsv cs sep := by
  simp [read_csv, decodeWith, h]

theorem tentar_eq_readerSpec (b : List Nat) :
    tentar_leitura_csv_variavel_sep b = readerSpec b := by
  by_cases hcontent : ∀ x ∈ b, x = 10
  · have hlat : dataLines (latin1Decode b) = [] :=
      (dataLines_eq_nil_iff _).mpr ((latin1_newlines b).mpr hcontent)
    obtain ⟨cs, hcs⟩ := Option.isSome_iff_exists.mp (utf8Decode_isSome_of_newlines b hcontent)
    have hutf : dataLines cs = [] :=
      (dataLines_eq_nil_iff _).mpr ((utf8_newlines b cs hcs).mpr hcontent)
    have e1 : ∀ sep, read_csv b sep Enc.utf8 = .error .emptyData := fun sep => by
      rw [read_csv_utf8_some b sep cs hcs]
      simp [parseCsv, hutf]
    have e2 : ∀ sep, read_csv b sep Enc.latin1 = .error .emptyData := fun sep => by
      rw [read_csv_latin1_eq]
      simp [parseCsv, hlat]
    simp [tentar_leitura_csv_variavel_sep, tentarAux, readerSpec, comboUsed, combosPriority,
      e1, e2, exceptIsOk]
  · have hcontent' : ¬ ∀ c ∈ latin1Decode b, c = '\n' := fun hl =>
      hcontent ((latin1_newlines b).mp hl)
    have hlat : dataLines (latin1Decode b) ≠ [] := fun he =>
      hcontent' ((dataLines_eq_nil_iff _).mp he)
    obtain ⟨lh, lt, hlat'⟩ := List.exists_cons_of_ne_nil hlat
    cases hu : utf8Decode b with
    | some cs =>
      have hcsc : dataLines cs ≠ [] := fun he =>
        hcontent ((utf8_newlines b cs hu).mp ((dataLines_eq_nil_iff _).mp he))
      obtain ⟨ch, ct, hcs'⟩ := List.exists_cons_of_ne_nil hcsc
      have e1 : ∀ sep, read_csv b sep Enc.utf8 = parseCsv cs sep := fun sep =>
        read_csv_utf8_some b sep cs hu
      simp [tentar_leitura_csv_variavel_sep, tentarAux, readerSpec, comboUsed, combosPriority,
        e1, parseCsv, hcs', exceptIsOk]
    | none =>
      have e1 : ∀ sep, read_csv b sep Enc.utf8 = .error .decodeError := fun sep =>
        read_csv_utf8_none b sep hu
      simp [tentar_leitura_csv_variavel_sep, tentarAux, readerSpec, comboUsed, combosPriority,
        e1, read_csv_latin1_eq, parseCsv, hlat', exceptIsOk]

theorem latin1_isOk_sep_independent (b : List Nat) (s1 s2 : Char) :
    exceptIsOk (read_csv b s1 Enc.latin1) = exceptIsOk (read_csv b s2 Enc.latin1) := by
  rw [read_csv_latin1_eq, read_csv_latin1_eq]
  rcases hd : dataLines (latin1Decode b) with _ | ⟨h, t⟩ <;> simp [parseCsv, hd, exceptIsOk]

theorem parseCsv_eq_of_dataLines (cs : List Char) (sep : Char) (h : List Char)
    (t : List (List Char)) (hd : dataLines cs = h :: t) :
    parseCsv cs sep = .ok ⟨(fields sep h).map (fun f => String.mk f),
      ((t.map (fun l => (fields sep l).map (fun f => Value.str (String.mk f)))).filter
        (fun fs => fs.length == ((fields sep h).map (fun f => String.mk f)).length)).map
        (fun fs => ((fields sep h).map (fun f => String.mk f)).zip fs)⟩ := by
  simp [parseCsv, hd]

/-- C3: for every delimited-text input, the reader tries the candidate
(delimiter, encoding) combinations in the fixed priority order semicolon,
comma, tab, each paired with utf-8 before latin1, and returns the dataset of
the first combination that succeeds. -/
theorem tentar_leitura_matches_priority_list (b : List Nat) :
    tentar_leitura_csv_variavel_sep b = readerSpec b :=
  tentar_eq_readerSpec b

/-- C2 counterexample: no input file is ever read via the (comma, latin1)
fallback combination: whenever any combination succeeds, one of the two
semicolon combinations already succeeds first, so the comma candidates are
never reached. -/
theorem comma_latin1_combo_never_used :
    ¬ ∃ b : List Nat, comboUsed b = some (',', Enc.latin1) := by
  rintro ⟨b, hb⟩
  have h4 := latin1_isOk_sep_independent b ',' ';'
  have h6 := latin1_isOk_sep_independent b '\t' ';'
  rcases h1 : exceptIsOk (read_csv b ';' Enc.utf8) with _ | _ <;>
    rcases h2 : exceptIsOk (read_csv b ';' Enc.latin1) with _ | _ <;>
    rcases h3 : exceptIsOk (read_csv b ',' Enc.utf8) with _ | _ <;>
    rcases h5 : exceptIsOk (read_csv b '\t' Enc.utf8) with _ | _ <;>
    rw [h2] at h4 h6 <;>
    simp [comboUsed, combosPriority, List.find?, h1, h2, h3, h4, h5, h6] at hb

/-- C2 (amended): a file that is not valid UTF-8 and has any content is read
successfully via the latin1 fallback paired with the semicolon delimiter (the
first delimiter in priority order); the comma combination is never consulted,
whatever delimiter the file's content actually uses. -/
theorem tentar_latin1_semicolon_fallback (b : List Nat) (h1 : utf8Decode b = none)
    (h2 : ∃ x ∈ b, x ≠ 10) :
    tentar_leitura_csv_variavel_sep b = read_csv b ';' Enc.latin1 ∧
      exceptIsOk (read_csv b ';' Enc.latin1) = true := by
  have hlat : dataLines (latin1Decode b) ≠ [] := by
    rw [Ne, dataLines_eq_nil_iff, latin1_newlines]
    obtain ⟨x, hx, hx10⟩ := h2
    exact fun hall => hx10 (hall x hx)
  have hok : exceptIsOk (read_csv b ';' Enc.latin1) = true := by
    rw [read_csv_latin1_eq]
    exact (parseCsv_isOk_iff _ _).mpr hlat
  refine ⟨?_, hok⟩
  have e1 : read_csv b ';' Enc.utf8 = .error .decodeError := read_csv_utf8_none b ';' h1
  obtain ⟨df, hdf⟩ : ∃ df, read_csv b ';' Enc.latin1 = .ok df := by
    rcases hr : read_csv b ';' Enc.latin1 with e | df
    · rw [hr] at hok
      simp [exceptIsOk] at hok
    · exact ⟨df, rfl⟩
  simp [tentar_leitura_csv_variavel_sep, tentarAux, e1, hdf]

/-- C6: if no (delimiter, encoding) combination parses the file, the reader
fails with the final raise (modelled as the unreadable error) instead of
returning a dataset. -/
theorem tentar_unreadable_of_all_fail (b : List Nat)
    (h : ∀ c ∈ combosPriority, exceptIsOk (read_csv b c.1 c.2) = false) :
    tentar_leitura_csv_variavel_sep b = .error .unreadable := by
  rw [tentar_eq_readerSpec]
  have hnone : comboUsed b = none :=
    List.find?_eq_none.mpr (fun c hc => by simp [h c hc])
  simp [readerSpec, hnone]

/-- C7: during a delimited-text parse, an error occurs exactly when the file
has no content at all; data lines whose field count differs from the header
are silently skipped: the produced rows are exactly the well-formed data
lines. -/
theorem parseCsv_skips_malformed (cs : List Char) (sep : Char) :
    ((exceptIsOk (parseCsv cs sep) = true) ↔ dataLines cs ≠ []) ∧
    (∀ df, parseCsv cs sep = .ok df →
      df.rows.length =
        (((dataLines cs).drop 1).filter
          (fun l => (fields sep l).length == df.cols.length)).length) := by
  refine ⟨parseCsv_isOk_iff cs sep, ?_⟩
  intro df hdf
  rcases hd : dataLines cs with _ | ⟨h, t⟩
  · simp [parseCsv, hd] at hdf
  · rw [parseCsv_eq_of_dataLines cs sep h t hd] at hdf
    rw [Except.ok.injEq] at hdf
    subst hdf
    dsimp only
    simp only [List.drop_succ_cons, List.drop_zero, List.length_map, List.filter_map]
    refine congrArg List.length (List.filter_congr ?_)
    intro l _
    simp

/-! ## Export-handler lemmas -/

theorem pipeline_spec_cols (df : DataFrame) (cols : List String) (m : Int) :
    (pipeline_spec df cols m).1.cols = cols := rfl

theorem gerar_txt_valid_eq (st : AppState) (d : DataFrame) (m : Int) (sc wo : Bool)
    (hdf : st.df = some d) (hsel : st.listbox_colunas ≠ [])
    (hmin : pythonInt st.spin_min_len = some m) (hm : 1 ≤ m) :
    gerar_txt st sc wo =
      ({ st with
          total_espacos_removidos := (pipeline_spec d st.listbox_colunas m).2.1
          linhas_removidas_por_tamanho := (pipeline_spec d st.listbox_colunas m).2.2.1
          total_duplicatas_removidas := (pipeline_spec d st.listbox_colunas m).2.2.2 },
        (if !sc then GenOutcome.cancelled
          else if wo then GenOutcome.saved (to_csv (pipeline_spec d st.listbox_colunas m).1 ';')
          else GenOutcome.saveError),
        ["limpar_espacos_em_colunas", "filtrar_primeira_coluna_por_tamanho",
          "remover_duplicatas"]) := by
  obtain ⟨c, cs, hc⟩ := List.exists_cons_of_ne_nil hsel
  simp only [gerar_txt, hdf, hc, hmin, List.isEmpty_cons, pipeline_spec, Bool.false_eq_true,
    if_false]
  rw [if_neg (show ¬ m < 1 by omega)]
  cases sc <;> cases wo <;> simp [hc]

/-- C1: on every export run with valid inputs, the cleaning stages are
applied in the fixed order whitespace normalization, length filter,
duplicate removal, each consuming the previous stage's output, and both the
length filter and the duplicate eliminator use the first entry of the curated
column selection as key: the handler's counters, trace and saved output all
equal those of the spec pipeline. -/
theorem gerar_txt_stage_order (st : AppState) (d : DataFrame) (m : Int)
    (hdf : st.df = some d) (hsel : st.listbox_colunas ≠ [])
    (hmin : pythonInt st.spin_min_len = some m) (hm : 1 ≤ m) :
    (∀ sc wo : Bool,
      (gerar_txt st sc wo).2.2 =
        ["limpar_espacos_em_colunas", "filtrar_primeira_coluna_por_tamanho",
          "remover_duplicatas"] ∧
      (gerar_txt st sc wo).1.total_espacos_removidos = (pipeline_spec d st.listbox_colunas m).2.1 ∧
      (gerar_txt st sc wo).1.linhas_removidas_por_tamanho =
        (pipeline_spec d st.listbox_colunas m).2.2.1 ∧
      (gerar_txt st sc wo).1.total_duplicatas_removidas =
        (pipeline_spec d st.listbox_colunas m).2.2.2) ∧
    (gerar_txt st true true).2.1 =
      .saved (to_csv (pipeline_spec d st.listbox_colunas m).1 ';') := by
  constructor
  · intro sc wo
    rw [gerar_txt_valid_eq st d m sc wo hdf hsel hmin hm]
    exact ⟨rfl, rfl, rfl, rfl⟩
  · rw [gerar_txt_valid_eq st d m true true hdf hsel hmin hm]
    rfl

/-- C4: a below-1 or unparsable minimum-length entry, or an empty curated
column selection, makes the export handler return a warning at once: the
state is unchanged and no cleaning stage is invoked. -/
theorem gerar_txt_rejects_invalid (st : AppState) (sc wo : Bool)
    (h : st.listbox_colunas = [] ∨ pythonInt st.spin_min_len = none ∨
      ∃ m, pythonInt st.spin_min_len = some m ∧ m < 1) :
    (∃ msg, (gerar_txt st sc wo).2.1 = .warning msg) ∧
      (gerar_txt st sc wo).1 = st ∧ (gerar_txt st sc wo).2.2 = [] := by
  rcases hdf : st.df with _ | d
  · simp [gerar_txt, hdf]
  · rcases h with h | h | ⟨m, hm1, hm2⟩
    · simp [gerar_txt, hdf, h]
    · rcases hsel : st.listbox_colunas with _ | ⟨c, cs⟩ <;> simp [gerar_txt, hdf, hsel, h]
    · rcases hsel : st.listbox_colunas with _ | ⟨c, cs⟩ <;>
        simp [gerar_txt, hdf, hsel, hm1, hm2]

/-- C5: on a successful export the written file has a byte-order marker, uses
the semicolon separator, and consists of exactly one header line holding the
curated columns in order followed by one line per cleaned row whose fields
are exactly the curated columns' values, in that order. -/
theorem export_output_format (st : AppState) (d : DataFrame) (m : Int)
    (hdf : st.df = some d) (hsel : st.listbox_colunas ≠ [])
    (hmin : pythonInt st.spin_min_len = some m) (hm : 1 ≤ m) :
    ∃ dfF : DataFrame,
      (gerar_txt st true true).2.1 = .saved (to_csv dfF ';') ∧
      dfF.cols = st.listbox_colunas ∧
      (to_csv dfF ';').bom = true ∧
      (to_csv dfF ';').sep = ';' ∧
      (to_csv dfF ';').lines =
        joinWith ';' st.listbox_colunas ::
          dfF.rows.map
            (fun r => joinWith ';' (st.listbox_colunas.map (fun c => strCoerce (cellValue r c)))) := by
  refine ⟨(pipeline_spec d st.listbox_colunas m).1, ?_, pipeline_spec_cols d _ m, rfl, rfl, ?_⟩
  · rw [gerar_txt_valid_eq st d m true true hdf hsel hmin hm]
    rfl
  · simp only [to_csv]
    rw [pipeline_spec_cols]

/-- C8: an export run never touches the loaded dataset: the df field of the
application state is the same before and after gerar_txt, on every control
path. -/
theorem gerar_txt_preserves_loaded_df (st : AppState) (sc wo : Bool) :
    ((gerar_txt st sc wo).1).df = st.df := by
  rcases hdf : st.df with _ | d
  · simp [gerar_txt, hdf]
  · rcases hsel : st.listbox_colunas with _ | ⟨c, cs⟩
    · simp [gerar_txt, hdf, hsel]
    · rcases hmin : pythonInt st.spin_min_len with _ | m
      · simp [gerar_txt, hdf, hsel, hmin]
      · by_cases hm : m < 1
        · simp [gerar_txt, hdf, hsel, hmin, hm]
        · cases sc <;> cases wo <;> simp [gerar_txt, hdf, hsel, hmin, hm]

/-- C10: selecting a file either leaves the whole application state exactly
as it was (no selection, unsupported extension, or a failed read), or —
exactly when the appropriate reader succeeds — stores the new dataset,
reloads the listbox with its columns and resets the three cleaning counters
to zero. -/
theorem selecionar_arquivo_failure_frame (st : AppState) (choice : FileChoice) :
    (readOutcome choice = none → selecionar_arquivo st choice = st) ∧
    (∀ d, readOutcome choice = some d →
      selecionar_arquivo st choice =
        { st with
          df := some d
          listbox_colunas := d.cols
          total_espacos_removidos := 0
          linhas_removidas_por_tamanho := 0
          total_duplicatas_removidas := 0 }) := by
  rcases choice with _ | r | b | _
  · simp [selecionar_arquivo, readOutcome]
  · rcases r with e | d <;> simp [selecionar_arquivo, readOutcome, Except.toOption]
  · rcases hr : tentar_leitura_csv_variavel_sep b with e | d <;>
      simp [selecionar_arquivo, readOutcome, hr, Except.toOption]
  · simp [selecionar_arquivo, readOutcome]

/-! ## Listbox lemmas -/

theorem getD_append_first {α : Type} (A : List α) (z : α) (B : List α) (d : α) :
    (A ++ z :: B).getD A.length d = z := by
  induction A with
  | nil => rfl
  | cons a A ih => simpa using ih

theorem getD_append_second {α : Type} (A : List α) (z w : α) (B : List α) (d : α) :
    (A ++ z :: w :: B).getD (A.length + 1) d = w := by
  induction A with
  | nil => rfl
  | cons a A ih => simpa using ih

theorem insertAt_cons_succ {α : Type} (a : α) (l : List α) (n : Nat) (x : α) :
    insertAt (a :: l) (n + 1) x = a :: insertAt l n x := rfl

theorem swap_core (A B : List String) (x y : String) :
    insertAt (insertAt (((A ++ x :: y :: B).eraseIdx A.length).eraseIdx A.length) A.length y)
      (A.length + 1) x = A ++ y :: x :: B := by
  induction A with
  | nil => rfl
  | cons a A ih =>
    simp only [List.cons_append, List.length_cons, List.eraseIdx_cons_succ, insertAt_cons_succ]
    rw [ih]

theorem step_cima_eq (A B : List String) (x y : String) :
    step_cima (A ++ x :: y :: B) (A.length + 1) = A ++ y :: x :: B := by
  unfold step_cima
  rw [if_neg (Nat.succ_ne_zero _)]
  simp only [Nat.add_sub_cancel]
  rw [getD_append_second A x y B "", getD_append_first A x (y :: B) ""]
  exact swap_core A B x y

theorem step_cima_perm (l : List String) (i : Nat) (h : i < l.length) :
    (step_cima l i).Perm l := by
  rcases i with _ | j
  · unfold step_cima
    simp
  · have hj : j < l.length := Nat.lt_of_succ_lt h
    have hlen : (l.take j).length = j := List.length_take_of_le (le_of_lt hj)
    have hdecomp : l = l.take j ++ l[j] :: l[j + 1] :: l.drop (j + 2) := by
      conv_lhs => rw [← List.take_append_drop j l]
      rw [List.drop_eq_getElem_cons hj, List.drop_eq_getElem_cons h]
    obtain ⟨A, x, y, B, hT, hA⟩ : ∃ A x y B, l = A ++ x :: y :: B ∧ A.length = j :=
      ⟨l.take j, l[j], l[j + 1], l.drop (j + 2), hdecomp, hlen⟩
    rw [hT, show j + 1 = A.length + 1 from by rw [hA], step_cima_eq]
    exact List.Perm.append_left _ (List.Perm.swap _ _ _)

theorem step_baixo_eq (count : Nat) (A B : List String) (x y : String)
    (hne : (A.length : Int) ≠ (count : Int) - 1) :
    step_baixo count (A ++ x :: y :: B) A.length = A ++ y :: x :: B := by
  unfold step_baixo
  rw [if_neg hne]
  rw [getD_append_first A x (y :: B) "", getD_append_second A x y B ""]
  exact swap_core A B x y

theorem step_baixo_perm (count : Nat) (l : List String) (i : Nat) (hcount : count = l.length)
    (h : i < l.length) : (step_baixo count l i).Perm l := by
  by_cases he : (i : Int) = (count : Int) - 1
  · unfold step_baixo
    rw [if_pos he]
  · have h1 : i + 1 < l.length := by omega
    have hj : i < l.length := h
    have hlen : (l.take i).length = i := List.length_take_of_le (le_of_lt hj)
    have hdecomp : l = l.take i ++ l[i] :: l[i + 1] :: l.drop (i + 2) := by
      conv_lhs => rw [← List.take_append_drop i l]
      rw [List.drop_eq_getElem_cons hj, List.drop_eq_getElem_cons h1]
    obtain ⟨A, x, y, B, hT, hA⟩ : ∃ A x y B, l = A ++ x :: y :: B ∧ A.length = i :=
      ⟨l.take i, l[i], l[i + 1], l.drop (i + 2), hdecomp, hlen⟩
    rw [hT, show i = A.length from hA.symm,
      step_baixo_eq count _ _ _ _ (by rw [hA]; exact he)]
    exact List.Perm.append_left _ (List.Perm.swap _ _ _)

theorem foldl_step_cima_perm (sel : List Nat) (l : List String)
    (hv : ∀ i ∈ sel, i < l.length) : (sel.foldl step_cima l).Perm l := by
  induction sel generalizing l with
  | nil => exact List.Perm.refl l
  | cons i sel ih =>
    simp only [List.foldl_cons]
    have hperm : (step_cima l i).Perm l := step_cima_perm l i (hv i (List.mem_cons_self _ _))
    have hv' : ∀ j ∈ sel, j < (step_cima l i).length := fun j hj => by
      rw [hperm.length_eq]
      exact hv j (List.mem_cons_of_mem _ hj)
    exact (ih (step_cima l i) hv').trans hperm

theorem foldl_step_baixo_perm (sel : List Nat) (count : Nat) (l : List String)
    (hcount : count = l.length) (hv : ∀ i ∈ sel, i < l.length) :
    (sel.foldl (step_baixo count) l).Perm l := by
  induction sel generalizing l with
  | nil => exact List.Perm.refl l
  | cons i sel ih =>
    simp only [List.foldl_cons]
    have hperm : (step_baixo count l i).Perm l :=
      step_baixo_perm count l i hcount (hv i (List.mem_cons_self _ _))
    have hlen : (step_baixo count l i).length = l.length := hperm.length_eq
    refine (ih (step_baixo count l i) ?_ ?_).trans hperm
    · rw [hlen]
      exact hcount
    · intro j hj
      rw [hlen]
      exact hv j (List.mem_cons_of_mem _ hj)

theorem foldl_eraseIdx_sublist (sel : List Nat) (l : List String) :
    (sel.foldl (fun acc i => acc.eraseIdx i) l).Sublist l := by
  induction sel generalizing l with
  | nil => exact List.Sublist.refl l
  | cons i sel ih =>
    simp only [List.foldl_cons]
    exact (ih (l.eraseIdx i)).trans (List.eraseIdx_sublist l i)

/-- C9: with a valid selection, moving entries up or down permutes the
curated column list (same entries, same length) and removing entries yields
a sublist; consequently, if the list was duplicate-free and a subset of the
loaded dataset's columns, it remains so after each of the three
operations. -/
theorem listbox_ops_preserve_validity (l : List String) (sel : List Nat) (cols : List String)
    (hv : ∀ i ∈ sel, i < l.length) (hnd : l.Nodup) (hsub : ∀ x ∈ l, x ∈ cols) :
    (mover_cima l sel).Perm l ∧ (mover_baixo l sel).Perm l ∧
      (remover_colunas l sel).Sublist l ∧
      ((mover_cima l sel).Nodup ∧ ∀ x ∈ mover_cima l sel, x ∈ cols) ∧
      ((mover_baixo l sel).Nodup ∧ ∀ x ∈ mover_baixo l sel, x ∈ cols) ∧
      ((remover_colunas l sel).Nodup ∧ ∀ x ∈ remover_colunas l sel, x ∈ cols) := by
  have hcima : (mover_cima l sel).Perm l := foldl_step_cima_perm sel l hv
  have hbaixo : (mover_baixo l sel).Perm l :=
    foldl_step_baixo_perm sel.reverse l.length l rfl
      (fun i hi => hv i (List.mem_reverse.mp hi))
  have hrem : (remover_colunas l sel).Sublist l := foldl_eraseIdx_sublist sel.reverse l
  refine ⟨hcima, hbaixo, hrem, ⟨?_, ?_⟩, ⟨?_, ?_⟩, ⟨?_, ?_⟩⟩
  · exact hcima.nodup_iff.mpr hnd
  · exact fun x hx => hsub x (hcima.mem_iff.mp hx)
  · exact hbaixo.nodup_iff.mpr hnd
  · exact fun x hx => hsub x (hbaixo.mem_iff.mp hx)
  · exact List.Nodup.sublist hrem hnd
  · exact fun x hx => hsub x (hrem.subset hx)

/-! ## Closed instance theorems -/

theorem gerar_txt_stage_order_witness :
    exSt.df = some exDf ∧ exSt.listbox_colunas ≠ [] ∧
      pythonInt exSt.spin_min_len = some 4 ∧ (1 : Int) ≤ 4 ∧
      (gerar_txt exSt true true).2.1 =
        .saved (to_csv (pipeline_spec exDf exSt.listbox_colunas 4).1 ';') :=
  ⟨rfl, by decide, by decide, by decide,
    (gerar_txt_stage_order exSt exDf 4 rfl (by decide) (by decide) (by decide)).2⟩

theorem tentar_latin1_semicolon_fallback_witness :
    utf8Decode exLatin1Bytes = none ∧ (∃ x ∈ exLatin1Bytes, x ≠ 10) ∧
      (tentar_leitura_csv_variavel_sep exLatin1Bytes = read_csv exLatin1Bytes ';' Enc.latin1 ∧
        exceptIsOk (read_csv exLatin1Bytes ';' Enc.latin1) = true) :=
  ⟨by decide, by decide,
    tentar_latin1_semicolon_fallback exLatin1Bytes (by decide) (by decide)⟩

theorem gerar_txt_rejects_invalid_witness :
    (exStBad.listbox_colunas = [] ∨ pythonInt exStBad.spin_min_len = none ∨
      ∃ m, pythonInt exStBad.spin_min_len = some m ∧ m < 1) ∧
      ((∃ msg, (gerar_txt exStBad true true).2.1 = .warning msg) ∧
        (gerar_txt exStBad true true).1 = exStBad ∧ (gerar_txt exStBad true true).2.2 = []) :=
  ⟨Or.inr (Or.inr ⟨0, by decide, by decide⟩),
    gerar_txt_rejects_invalid exStBad true true (Or.inr (Or.inr ⟨0, by decide, by decide⟩))⟩

theorem export_output_format_witness :
    exSt.df = some exDf ∧ exSt.listbox_colunas ≠ [] ∧
      pythonInt exSt.spin_min_len = some 4 ∧ (1 : Int) ≤ 4 ∧
      ∃ dfF : DataFrame,
        (gerar_txt exSt true true).2.1 = .saved (to_csv dfF ';') ∧
        dfF.cols = exSt.listbox_colunas ∧
        (to_csv dfF ';').bom = true ∧
        (to_csv dfF ';').sep = ';' ∧
        (to_csv dfF ';').lines =
          joinWith ';' exSt.listbox_colunas ::
            dfF.rows.map
              (fun r =>
                joinWith ';' (exSt.listbox_colunas.map (fun c => strCoerce (cellValue r c)))) :=
  ⟨rfl, by decide, by decide, by decide,
    export_output_format exSt exDf 4 rfl (by decide) (by decide) (by decide)⟩

theorem tentar_unreadable_of_all_fail_witness :
    (∀ c ∈ combosPriority, exceptIsOk (read_csv ([] : List Nat) c.1 c.2) = false) ∧
      tentar_leitura_csv_variavel_sep ([] : List Nat) = .error .unreadable :=
  ⟨by decide, tentar_unreadable_of_all_fail ([] : List Nat) (by decide)⟩

theorem parseCsv_skips_malformed_witness :
    parseCsv exCsvText ';' = .ok exParsedDf ∧
      exParsedDf.rows.length =
        (((dataLines exCsvText).drop 1).filter
          (fun l => (fields ';' l).length == exParsedDf.cols.length)).length :=
  ⟨rfl, (parseCsv_skips_malformed exCsvText ';').2 exParsedDf rfl⟩

theorem listbox_ops_preserve_validity_witness :
    (∀ i ∈ [1], i < (["A", "B", "C"] : List String).length) ∧
      (["A", "B", "C"] : List String).Nodup ∧
      (∀ x ∈ (["A", "B", "C"] : List String), x ∈ (["A", "B", "C", "D"] : List String)) ∧
      ((mover_cima ["A", "B", "C"] [1]).Perm ["A", "B", "C"] ∧
        (mover_baixo ["A", "B", "C"] [1]).Perm ["A", "B", "C"] ∧
        (remover_colunas ["A", "B", "C"] [1]).Sublist ["A", "B", "C"] ∧
        ((mover_cima ["A", "B", "C"] [1]).Nodup ∧
          ∀ x ∈ mover_cima ["A", "B", "C"] [1], x ∈ (["A", "B", "C", "D"] : List String)) ∧
        ((mover_baixo ["A", "B", "C"] [1]).Nodup ∧
          ∀ x ∈ mover_baixo ["A", "B", "C"] [1], x ∈ (["A", "B", "C", "D"] : List String)) ∧
        ((remover_colunas ["A", "B", "C"] [1]).Nodup ∧
          ∀ x ∈ remover_colunas ["A", "B", "C"] [1], x ∈ (["A", "B", "C", "D"] : List String))) :=
  ⟨by decide, by decide, by decide,
    listbox_ops_preserve_validity ["A", "B", "C"] [1] ["A", "B", "C", "D"]
      (by decide) (by decide) (by decide)⟩

theorem selecionar_arquivo_failure_frame_witness :
    readOutcome (FileChoice.delim []) = none ∧
      selecionar_arquivo exStPrev (FileChoice.delim []) = exStPrev :=
  ⟨by decide, (selecionar_arquivo_failure_frame exStPrev (FileChoice.delim [])).1 (by decide)⟩
